import Mathlib

/-!
Shallow embedding of the challenge-coordination core of
`browser_captcha_solver` (files `browser_captcha_solver/solver.py` and
`browser_captcha_solver/server.py`; the HTTP handler logic is duplicated
verbatim between the two files, so a single embedding covers both).

Modelling conventions:
* wall-clock instants and durations are rationals (seconds); `datetime.now()`
  becomes an explicit `now : ℚ` argument and `challenge.created` stores the
  creation instant;
* Python `int(x)` on a float is truncation toward zero, modelled by `pyInt`;
* the challenge dictionary and the callback dictionary become association
  lists with first-match lookup (`dictGet`) and in-place update (`dictSet`);
* URL percent-decoding (`urllib.parse.unquote` / the `unquote_plus` applied
  by `parse_qs` to every query value) is modelled at byte level for the
  ASCII range, which is the range all claims exercise;
* HTTP responses are a status/content pair; page markup bodies are abridged
  markers (the spec, §1, places markup generation outside the core), while
  every routing decision, header string and state mutation follows the
  source;
* a caller-supplied callback is a function into an explicit outcome type
  (`CbResult.raised` standing for "the callback raised"), and every operation
  returns the list of callback invocations it performed, so "a callback is
  never invoked" is a provable statement.
-/

namespace BrowserCaptcha

/-- Python `int(x)` applied to a rational: truncation toward zero
(`int(self.timeout - elapsed)` in `CaptchaChallenge.get_remaining_timeout`). -/
def pyInt (q : ℚ) : ℤ := q.num.tdiv q.den

/-- Value of an ASCII hex digit, if `c` is one. -/
def hexDigit? (c : Char) : Option Nat :=
  if '0' ≤ c ∧ c ≤ '9' then some (c.toNat - '0'.toNat)
  else if 'a' ≤ c ∧ c ≤ 'f' then some (c.toNat - 'a'.toNat + 10)
  else if 'A' ≤ c ∧ c ≤ 'F' then some (c.toNat - 'A'.toNat + 10)
  else none

/-- One left-to-right pass of percent-decoding, as `urllib.parse.unquote`
performs on each `%XX` escape; an invalid escape is kept literally, exactly
as `unquote` keeps it. -/
def percentDecode : List Char → List Char
  | [] => []
  | '%' :: a :: b :: rest =>
    match hexDigit? a, hexDigit? b with
    | some x, some y => Char.ofNat (16 * x + y) :: percentDecode rest
    | _, _ => '%' :: percentDecode (a :: b :: rest)
  | c :: rest => c :: percentDecode rest

/-- `urllib.parse.unquote` (ASCII range). -/
def unquote (s : String) : String := ⟨percentDecode s.data⟩

/-- The `'+'' → ' '` step of `unquote_plus`. -/
def plusToSpace (s : String) : String :=
  ⟨s.data.map (fun c => if c = '+' then ' ' else c)⟩

/-- `urllib.parse.unquote_plus`, the decoder `parse_qs` applies to every
query value: first `'+' → ' '`, then percent-decoding. -/
def unquote_plus (s : String) : String := unquote (plusToSpace s)

/-- `params.get(key, [None])[0]` after `params = parse_qs(query)`: the query
is the raw (still encoded) key/value pair list; `parse_qs` drops pairs with
a blank value (its default `keep_blank_values=False`) and decodes each kept
value with `unquote_plus`; `[0]` takes the first kept value. -/
def qsLookup : List (String × String) → String → Option String
  | [], _ => none
  | (k, v) :: rest, key =>
    if k = key ∧ v ≠ "" then some (unquote_plus v) else qsLookup rest key

/-- Python `str.endswith(suffix)`. -/
def strEndsWith (s suffix : String) : Bool := suffix.data.isSuffixOf s.data

/-- Dictionary lookup, `d.get(k)`: first binding of the key. -/
def dictGet {α : Type} : List (String × α) → String → Option α
  | [], _ => none
  | (k', v') :: rest, k => if k' = k then some v' else dictGet rest k

/-- Dictionary write, `d[k] = v`: replace the binding of `k` if present,
otherwise append (dict insertion order). -/
def dictSet {α : Type} : List (String × α) → String → α → List (String × α)
  | [], k, v => [(k, v)]
  | (k', v') :: rest, k, v =>
    if k' = k then (k, v) :: rest else (k', v') :: dictSet rest k v

/-- Dictionary deletion, `del d[k]`. -/
def dictDel {α : Type} (l : List (String × α)) (k : String) : List (String × α) :=
  l.filter (fun p => decide (p.1 ≠ k))

/-- The `CaptchaChallenge` dataclass (`solver.py`).  `timeout` is the Python
int field (default 300 s), `created` the `datetime.now()` captured at
construction, and the remaining fields are the stored strings.  Defaults
mirror the dataclass defaults. -/
structure CaptchaChallenge where
  id : String
  challenge_type : String := ""
  site_key : String := ""
  site_domain : String := ""
  secure_token : Option String := none
  host : String := ""
  timeout : ℤ := 300
  created : ℚ
  solved : Bool := false
  result : Option String := none
  explain : String := ""
  type_id : String := ""
deriving DecidableEq

/-- `CaptchaChallenge.get_remaining_timeout`:
`max(0, int(self.timeout - (now - self.created).total_seconds()))`. -/
def get_remaining_timeout (c : CaptchaChallenge) (now : ℚ) : ℤ :=
  max 0 (pyInt ((c.timeout : ℚ) - (now - c.created)))

/-- `CaptchaChallenge.is_expired`: `self.get_remaining_timeout() <= 0`. -/
def is_expired (c : CaptchaChallenge) (now : ℚ) : Bool :=
  decide (get_remaining_timeout c now ≤ 0)

/-- The `CaptchaJob` dataclass (the summary row built by
`CaptchaSolver.list_challenges`). -/
structure CaptchaJob where
  id : String
  challenge_type : String
  hoster : String
  captcha_category : String
  explain : String
  remaining : ℤ
  timeout : ℤ
  created : ℚ
  link : Option String := none
deriving DecidableEq

/-- Outcome of invoking a caller-supplied solution callback:
it either returns or raises. -/
inductive CbResult where
  | ok : CbResult
  | raised : CbResult
deriving DecidableEq

/-- A caller-supplied solution callback (`callback(challenge)`), modelled by
the outcome it produces on each challenge value. -/
structure Callback where
  run : CaptchaChallenge → CbResult

/-- The mutable state of a `CaptchaSolver` instance that the claims concern:
`self.challenges` and `self.solution_callbacks`. -/
structure SolverState where
  challenges : List (String × CaptchaChallenge) := []
  solution_callbacks : List (String × Callback) := []

/-- An HTTP response: either `send_error(code)` or a 200 answer with the
given `Content-Type` header value and body. -/
inductive HttpResp where
  | error : ℕ → HttpResp
  | ok : String → String → HttpResp
deriving DecidableEq

/-- `CaptchaSolver.get_challenge`. -/
def get_challenge (s : SolverState) (cid : String) : Option CaptchaChallenge :=
  dictGet s.challenges cid

/-- `CaptchaSolver.create_challenge`: stores the freshly built record under
its id (`self.challenges[challenge.id] = challenge`). -/
def create_challenge (s : SolverState) (c : CaptchaChallenge) : SolverState :=
  { s with challenges := dictSet s.challenges c.id c }

/-- `CaptchaSolver._on_captcha_solved`: look up the callback registered for
`challenge.id`; if present, invoke it inside `try/except` (an exception is
caught and only logged) and delete it in the `finally` block.  The returned
list records the invocations performed and their outcomes. -/
def on_captcha_solved (s : SolverState) (c : CaptchaChallenge) :
    SolverState × List (String × CbResult) :=
  match dictGet s.solution_callbacks c.id with
  | none => (s, [])
  | some cb =>
    ({ s with solution_callbacks := dictDel s.solution_callbacks c.id },
     [(c.id, cb.run c)])

/-- The confirmation document `_handle_solve` always answers with
(braces of the inline script written as escapes). -/
def confirmation_page : String :=
  "<html><body><h2>Captcha Solved!</h2><p>You can close this window now.</p><script>setTimeout(function()\x7bwindow.close();\x7d, 2000);</script></body></html>"

/-- `CaptchaHTTPHandler._handle_solve` for the challenge found by the
dispatcher under query key `cid`: read the first `response` value; if it is
truthy, set `challenge.result = unquote(response_token)` and
`challenge.solved = True` (the registry holds the same object, modelled by
writing the updated record back under `cid`) and notify
`_on_captcha_solved`; in every case answer 200 with the confirmation page. -/
def handle_solve (s : SolverState) (cid : String) (c : CaptchaChallenge)
    (query : List (String × String)) :
    SolverState × HttpResp × List (String × CbResult) :=
  let resp := HttpResp.ok "text/html; charset=utf-8" confirmation_page
  match qsLookup query "response" with
  | none => (s, resp, [])
  | some tok =>
    if tok = "" then (s, resp, [])
    else
      let c' := { c with result := some (unquote tok), solved := true }
      let s1 := { s with challenges := dictSet s.challenges cid c' }
      let step := on_captcha_solved s1 c'
      (step.1, resp, step.2)

/-- `CaptchaHTTPHandler._handle_can_close`:
`can_close = challenge.solved or challenge.is_expired()`. -/
def handle_can_close (c : CaptchaChallenge) (now : ℚ) : HttpResp :=
  HttpResp.ok "text/plain" (if c.solved || is_expired c now then "true" else "false")

/-- Marker body for `_get_browser_captcha_js` (presentational script
content; out of the modelled core per spec §1). -/
def browser_captcha_js (c : CaptchaChallenge) : String :=
  "browser_captcha_js:" ++ c.id

/-- Marker body for `_serve_css` (static style text). -/
def css_content : String := "css_content"

/-- Marker bodies for the three page renderers and the dispatch of
`_serve_captcha_page` on `challenge.challenge_type`. -/
def get_recaptcha_html (c : CaptchaChallenge) : String :=
  "recaptcha_html:" ++ c.host ++ ":" ++ c.site_key

def get_hcaptcha_html (c : CaptchaChallenge) : String :=
  "hcaptcha_html:" ++ c.host ++ ":" ++ c.site_key

def get_generic_captcha_html (c : CaptchaChallenge) : String :=
  "generic_html:" ++ c.host ++ ":" ++ c.explain

def captcha_page_html (c : CaptchaChallenge) : String :=
  if c.challenge_type = "RecaptchaV2Challenge" then get_recaptcha_html c
  else if c.challenge_type = "HCaptchaChallenge" then get_hcaptcha_html c
  else get_generic_captcha_html c

/-- `CaptchaHTTPHandler.do_GET`: the request router.  `path` is the URL path
component, `query` the raw query pairs, `now` the wall clock.  The id and
action are read from the query; a missing or falsy id, or an unknown id,
answers 404 before anything else; then the action dispatch runs in source
order (`loaded`, `canClose`, `solve`, `unload`, `.js` suffix, `.css`
suffix, default page). -/
def do_GET (s : SolverState) (path : String) (query : List (String × String))
    (now : ℚ) : SolverState × HttpResp × List (String × CbResult) :=
  let challenge_id := qsLookup query "id"
  let do_action := qsLookup query "do"
  match challenge_id with
  | none => (s, HttpResp.error 404, [])
  | some cid =>
    if cid = "" then (s, HttpResp.error 404, [])
    else
      match get_challenge s cid with
      | none => (s, HttpResp.error 404, [])
      | some challenge =>
        if do_action = some "loaded" then
          (s, HttpResp.ok "text/plain" "OK", [])
        else if do_action = some "canClose" then
          (s, handle_can_close challenge now, [])
        else if do_action = some "solve" then
          handle_solve s cid challenge query
        else if do_action = some "unload" then
          (s, HttpResp.ok "text/plain" "OK", [])
        else if strEndsWith path ".js" then
          (s, HttpResp.ok "application/javascript; charset=utf-8" (browser_captcha_js challenge), [])
        else if strEndsWith path ".css" then
          (s, HttpResp.ok "text/css; charset=utf-8" css_content, [])
        else
          (s, HttpResp.ok "text/html; charset=utf-8" (captcha_page_html challenge), [])

/-- `CaptchaSolver.list_challenges`: collect a `CaptchaJob` for every stored
challenge with `not solved and not expired`, then
`jobs.sort(key=lambda x: x.remaining)` (ascending, stable — modelled by
`List.mergeSort`, which is the same stable ascending sort). -/
def toJob (c : CaptchaChallenge) (now : ℚ) : CaptchaJob :=
  { id := c.id
    challenge_type := c.challenge_type
    hoster := c.host
    captcha_category := c.type_id
    explain := c.explain
    remaining := get_remaining_timeout c now
    timeout := c.timeout
    created := c.created }

def list_challenges (s : SolverState) (now : ℚ) : List CaptchaJob :=
  (((s.challenges.map Prod.snd).filter
      (fun c => !c.solved && !(is_expired c now))).map (fun c => toJob c now)).mergeSort
    (fun a b => a.remaining ≤ b.remaining)

/-- `CaptchaSolver.cleanup_expired_challenges`: collect the ids of every
stored challenge with `is_expired()`, delete each from `self.challenges`,
and delete its entry from `self.solution_callbacks` when present.  No
callback is invoked (second component always empty). -/
def cleanup_expired_challenges (s : SolverState) (now : ℚ) :
    SolverState × List (String × CbResult) :=
  let expired_ids := (s.challenges.filter (fun p => is_expired p.2 now)).map Prod.fst
  ({ challenges := s.challenges.filter (fun p => !(expired_ids.contains p.1))
     solution_callbacks :=
       s.solution_callbacks.filter (fun p => !(expired_ids.contains p.1)) }, [])

/-- The poll interval of `CaptchaSolver._wait_for_solution`
(`time.sleep(0.5)`), in seconds. -/
def poll_interval : ℚ := 1 / 2

/-- `CaptchaSolver._wait_for_solution`: the body of the polling loop, over
the trace of challenge snapshots observed at the successive poll instants
(iteration `i` runs at `start_time + i * poll_interval`); the list contains
exactly the iterations whose loop condition `time.time() - start_time <
timeout` held, so an exhausted list is the caller-timeout exit.  Each
iteration returns `challenge.result` when the snapshot is solved, breaks
(returning `None`) when it is expired, and otherwise sleeps and polls
again. -/
def wait_for_solution : List (CaptchaChallenge × ℚ) → Option String
  | [] => none
  | (c, now) :: rest =>
    if c.solved then c.result
    else if is_expired c now then none
    else wait_for_solution rest

/-- The third-party API base URL that `_modify_recaptcha_js` rewrites. -/
def google_api_base : String := "https://www.google.com/recaptcha/api2/"

/-- `base_url = f"http://{Host header}/captcha/recaptchav2/{challenge.host}/"`. -/
def recaptcha_base_url (hostHeader : String) (c : CaptchaChallenge) : String :=
  "http://" ++ hostHeader ++ "/captcha/recaptchav2/" ++ c.host ++ "/"

/-- The `solve_handler` script `_modify_recaptcha_js` appends (the f-string
with `base_url` and `challenge.id` interpolated; braces and quotes written
as escapes). -/
def solve_handler (base_url cid : String) : String :=
  "\n        function submitCaptchaSolution(token) \x7b\n            var xhr = new XMLHttpRequest();\n            xhr.open(\x27GET\x27, \x27"
    ++ base_url ++ "?id=" ++ cid
    ++ "&do=solve&response=\x27 + encodeURIComponent(token), true);\n            xhr.send();\n        \x7d\n        "

/-- Python `str.replace(pat, rep)` on character lists for a non-empty
pattern: leftmost-first, non-overlapping, every occurrence. -/
def replaceAll (pat rep : List Char) (s : List Char) : List Char :=
  if h : pat ≠ [] ∧ pat.isPrefixOf s then
    rep ++ replaceAll pat rep (s.drop pat.length)
  else
    match s with
    | [] => []
    | c :: cs => c :: replaceAll pat rep cs
termination_by s.length
decreasing_by
  · have hp : 0 < pat.length := List.length_pos.mpr h.1
    have hs : pat.length ≤ s.length :=
      List.IsPrefix.length_le (List.isPrefixOf_iff_prefix.mp h.2)
    simp only [List.length_drop]
    omega
  · simp

/-- Python `pat in s` (substring containment), by the same left-to-right
scan as `replaceAll`. -/
def containsSeq (pat : List Char) : List Char → Bool
  | [] => pat.isPrefixOf []
  | c :: cs => pat.isPrefixOf (c :: cs) || containsSeq pat cs

/-- `str.replace` on strings. -/
def str_replace (s pat rep : String) : String :=
  ⟨replaceAll pat.data rep.data s.data⟩

/-- `CaptchaHTTPHandler._modify_recaptcha_js`: replace every occurrence of
the Google API base URL by the local proxy URL, then append the solution
handler script. -/
def modify_recaptcha_js (hostHeader : String) (c : CaptchaChallenge)
    (js_content : String) : String :=
  let base_url := recaptcha_base_url hostHeader c
  str_replace js_content google_api_base (base_url ++ "proxy/")
    ++ solve_handler base_url c.id

/-! Concrete fixtures used by counterexamples and witnesses. -/

/-- A pending challenge with the dataclass defaults (timeout 300 s),
created at instant 0. -/
def cex : CaptchaChallenge := { id := "c1", created := 0 }

/-- A challenge with `timeout=2`, created at instant 0. -/
def cexShort : CaptchaChallenge := { id := "c2", created := 0, timeout := 2 }

/-- A challenge with `timeout=0`, created at instant 0. -/
def cexZero : CaptchaChallenge := { id := "c3", created := 0, timeout := 0 }

/-- A challenge with `timeout=1`, created at instant 0. -/
def cexOne : CaptchaChallenge := { id := "c4", created := 0, timeout := 1 }

/-- A solved challenge carrying the token "tok". -/
def cexSolved : CaptchaChallenge :=
  { id := "c9", created := 0, solved := true, result := some "tok" }

/-- Registry holding the single pending challenge `cex`. -/
def st0 : SolverState := { challenges := [("c1", cex)] }

/-- A callback that raises on every invocation. -/
def cbRaised : Callback := ⟨fun _ => CbResult.raised⟩

/-- Registry holding `cex` together with a raising callback for its id. -/
def stCb : SolverState :=
  { challenges := [("c1", cex)], solution_callbacks := [("c1", cbRaised)] }

/-! ### Arithmetic characterization of expiry -/

theorem pyInt_nonpos_iff (q : ℚ) : pyInt q ≤ 0 ↔ q < 1 := by
  rw [Rat.lt_one_iff_num_lt_denom]
  unfold pyInt
  have hd : (0 : ℤ) < (q.den : ℤ) := by exact_mod_cast q.den_pos
  rcases le_or_lt 0 q.num with h | h
  · constructor
    · intro hle
      by_contra hlt
      push_neg at hlt
      have h1 : (1 : ℤ) ≤ q.num.tdiv q.den := by
        rw [Int.tdiv_eq_ediv h (le_of_lt hd), Int.le_ediv_iff_mul_le hd]
        omega
      omega
    · intro hlt
      rw [Int.tdiv_eq_zero_of_lt h hlt]
  · constructor
    · intro _
      omega
    · intro _
      have h2 : q.num.tdiv q.den = -((-q.num).tdiv q.den) := by
        rw [Int.neg_tdiv, Int.neg_neg]
      rw [h2]
      have h3 : 0 ≤ (-q.num).tdiv q.den :=
        Int.tdiv_nonneg (by omega) (le_of_lt hd)
      omega

theorem is_expired_true_iff (c : CaptchaChallenge) (now : ℚ) :
    is_expired c now = true ↔ (c.timeout : ℚ) - (now - c.created) < 1 := by
  unfold is_expired get_remaining_timeout
  rw [decide_eq_true_eq, max_le_iff]
  constructor
  · intro h
    exact (pyInt_nonpos_iff _).mp h.2
  · intro h
    exact ⟨le_refl 0, (pyInt_nonpos_iff _).mpr h⟩

theorem is_expired_false_iff (c : CaptchaChallenge) (now : ℚ) :
    is_expired c now = false ↔ 1 ≤ (c.timeout : ℚ) - (now - c.created) := by
  constructor
  · intro hf
    by_contra hlt
    push_neg at hlt
    have h1 := (is_expired_true_iff c now).mpr hlt
    rw [hf] at h1
    exact Bool.false_ne_true h1
  · intro hle
    cases hb : is_expired c now
    · rfl
    · have h1 := (is_expired_true_iff c now).mp hb
      linarith

theorem remaining_eq_zero_iff (c : CaptchaChallenge) (now : ℚ) :
    get_remaining_timeout c now = 0 ↔ (c.timeout : ℚ) - (now - c.created) < 1 := by
  unfold get_remaining_timeout
  rw [max_eq_left_iff]
  exact pyInt_nonpos_iff _

/-! ### Dictionary lemmas -/

theorem dictGet_dictSet_self {α : Type} (l : List (String × α)) (k : String) (v : α) :
    dictGet (dictSet l k v) k = some v := by
  induction l with
  | nil => simp [dictSet, dictGet]
  | cons p rest ih =>
    obtain ⟨k', v'⟩ := p
    by_cases h : k' = k
    · simp [dictSet, dictGet, h]
    · simp [dictSet, dictGet, h, ih]

theorem dictGet_dictSet_ne {α : Type} (l : List (String × α)) (k k' : String) (v : α)
    (h : k' ≠ k) : dictGet (dictSet l k v) k' = dictGet l k' := by
  induction l with
  | nil =>
    have hne : ¬ k = k' := fun hh => h hh.symm
    simp [dictSet, dictGet, hne]
  | cons p rest ih =>
    obtain ⟨k₀, v₀⟩ := p
    by_cases h0 : k₀ = k
    · subst h0
      have hne : ¬ k₀ = k' := fun hh => h hh.symm
      simp [dictSet, dictGet, hne]
    · by_cases h1 : k₀ = k'
      · simp [dictSet, dictGet, h0, h1, h]
      · simp [dictSet, dictGet, h0, h1, ih]

theorem mem_dictSet {α : Type} {l : List (String × α)} {k : String} {v : α}
    {p : String × α} (hp : p ∈ dictSet l k v) : p = (k, v) ∨ p ∈ l := by
  induction l with
  | nil => simpa [dictSet] using hp
  | cons q rest ih =>
    obtain ⟨k₀, v₀⟩ := q
    by_cases h : k₀ = k
    · simp [dictSet, h] at hp
      rcases hp with h1 | h1
      · left; simp [h1]
      · right; simp [h1]
    · simp [dictSet, h] at hp
      rcases hp with h1 | h1
      · right; simp [h1]
      · rcases ih h1 with h2 | h2
        · left; exact h2
        · right; simp [h2]

theorem dictGet_dictDel_self {α : Type} (l : List (String × α)) (k : String) :
    dictGet (dictDel l k) k = none := by
  induction l with
  | nil => simp [dictDel, dictGet]
  | cons p rest ih =>
    obtain ⟨k₀, v₀⟩ := p
    by_cases h : k₀ = k
    · simpa [dictDel, dictGet, h] using ih
    · simpa [dictDel, dictGet, h] using ih

theorem dictGet_eq_some_mem {α : Type} {l : List (String × α)} {k : String} {v : α}
    (h : dictGet l k = some v) : (k, v) ∈ l := by
  induction l with
  | nil => simp [dictGet] at h
  | cons p rest ih =>
    obtain ⟨k₀, v₀⟩ := p
    by_cases h0 : k₀ = k
    · subst h0
      simp [dictGet] at h
      simp [h]
    · simp [dictGet, h0] at h
      simp [ih h]

theorem nodup_keys_eq {α : Type} {l : List (String × α)}
    (h : (l.map Prod.fst).Nodup) {k : String} {a b : α}
    (ha : (k, a) ∈ l) (hb : (k, b) ∈ l) : a = b := by
  induction l with
  | nil => simp at ha
  | cons p rest ih =>
    simp only [List.map_cons, List.nodup_cons] at h
    rcases List.mem_cons.mp ha with h1 | h1 <;>
      rcases List.mem_cons.mp hb with h2 | h2
    · rw [← h2] at h1
      injection h1 with hk hab
    · exfalso
      apply h.1
      have hp : p.1 = k := by rw [← h1]
      rw [hp]
      exact List.mem_map_of_mem Prod.fst h2
    · exfalso
      apply h.1
      have hp : p.1 = k := by rw [← h2]
      rw [hp]
      exact List.mem_map_of_mem Prod.fst h1
    · exact ih h.2 h1 h2

/-! ### Substring scan and replacement lemmas -/

theorem containsSeq_iff (pat s : List Char) :
    containsSeq pat s = true ↔ ∃ x y, s = x ++ pat ++ y := by
  induction s with
  | nil =>
    simp only [containsSeq]
    rw [List.isPrefixOf_iff_prefix]
    constructor
    · intro h
      have hp : pat = [] := List.prefix_nil.mp h
      exact ⟨[], [], by simp [hp]⟩
    · rintro ⟨x, y, hxy⟩
      have hx : x ++ pat ++ y = [] := hxy.symm
      simp only [List.append_eq_nil] at hx
      simp [hx.1.2]
  | cons c cs ih =>
    simp only [containsSeq, Bool.or_eq_true]
    rw [List.isPrefixOf_iff_prefix, ih]
    constructor
    · rintro (h | ⟨x, y, rfl⟩)
      · obtain ⟨t, ht⟩ := h
        exact ⟨[], t, by simp [← ht]⟩
      · exact ⟨c :: x, y, by simp⟩
    · rintro ⟨x, y, hxy⟩
      cases x with
      | nil =>
        left
        simp only [List.nil_append] at hxy
        exact ⟨y, hxy.symm⟩
      | cons a x' =>
        right
        simp only [List.cons_append, List.cons.injEq] at hxy
        exact ⟨x', y, hxy.2⟩

theorem replaceAll_of_not_contains (pat rep s : List Char)
    (h : containsSeq pat s = false) : replaceAll pat rep s = s := by
  induction s with
  | nil =>
    rw [replaceAll]
    rw [dif_neg]
    rintro ⟨h1, h2⟩
    simp only [containsSeq] at h
    rw [h] at h2
    exact Bool.false_ne_true h2
  | cons c cs ih =>
    have h2 : pat.isPrefixOf (c :: cs) = false ∧ containsSeq pat cs = false := by
      simpa only [containsSeq, Bool.or_eq_false_iff] using h
    rw [replaceAll]
    rw [dif_neg]
    · show c :: replaceAll pat rep cs = c :: cs
      rw [ih h2.2]
    · rintro ⟨h3, h4⟩
      rw [h2.1] at h4
      exact Bool.false_ne_true h4

theorem replaceAll_boundary (pat rep : List Char) (hne : pat ≠ []) :
    ∀ p q : List Char, containsSeq pat (p ++ pat.dropLast) = false →
      replaceAll pat rep (p ++ pat ++ q) = p ++ rep ++ replaceAll pat rep q := by
  intro p
  induction p with
  | nil =>
    intro q _
    simp only [List.nil_append]
    rw [replaceAll]
    rw [dif_pos ⟨hne, List.isPrefixOf_iff_prefix.mpr (List.prefix_append pat q)⟩]
    rw [List.drop_left]
  | cons a p' ih =>
    intro q h
    have htail : containsSeq pat (p' ++ pat.dropLast) = false := by
      have h' : containsSeq pat (a :: (p' ++ pat.dropLast)) = false := by
        simpa only [List.cons_append] using h
      simp only [containsSeq, Bool.or_eq_false_iff] at h'
      exact h'.2
    have hpre : pat.isPrefixOf (a :: (p' ++ pat ++ q)) = false := by
      by_contra hb
      rw [Bool.not_eq_false] at hb
      have hp : pat <+: a :: (p' ++ pat ++ q) := List.isPrefixOf_iff_prefix.mp hb
      have hd : pat.dropLast ++ [pat.getLast hne] = pat :=
        List.dropLast_append_getLast hne
      have hsplit : a :: (p' ++ pat ++ q)
          = (a :: (p' ++ pat.dropLast)) ++ ([pat.getLast hne] ++ q) := by
        conv =>
          lhs
          rw [← hd]
        simp [List.append_assoc]
      have hlen : pat.length ≤ (a :: (p' ++ pat.dropLast)).length := by
        have hpos := List.length_pos.mpr hne
        simp only [List.length_cons, List.length_append, List.length_dropLast]
        omega
      have htake : pat = (a :: (p' ++ pat.dropLast)).take pat.length := by
        have h1 := List.prefix_iff_eq_take.mp hp
        rw [hsplit, List.take_append_eq_append_take,
          Nat.sub_eq_zero_of_le hlen, List.take_zero, List.append_nil] at h1
        exact h1
      have hp2 : pat <+: a :: (p' ++ pat.dropLast) := by
        have hq := List.take_prefix pat.length (a :: (p' ++ pat.dropLast))
        rw [← htake] at hq
        exact hq
      obtain ⟨t, ht⟩ := hp2
      have hcon : containsSeq pat (a :: (p' ++ pat.dropLast)) = true :=
        (containsSeq_iff _ _).mpr ⟨[], t, by simp [← ht]⟩
      have h' : containsSeq pat (a :: (p' ++ pat.dropLast)) = false := by
        simpa only [List.cons_append] using h
      rw [h'] at hcon
      exact Bool.false_ne_true hcon
    have hstep : (a :: p') ++ pat ++ q = a :: (p' ++ pat ++ q) := by
      simp
    rw [hstep, replaceAll]
    rw [dif_neg fun hcond => Bool.false_ne_true (hpre ▸ hcond.2)]
    show a :: replaceAll pat rep (p' ++ pat ++ q) = _
    rw [ih q htail]
    simp

/-! ### Shape lemmas for the request router -/

theorem on_captcha_solved_challenges (s : SolverState) (c : CaptchaChallenge) :
    (on_captcha_solved s c).1.challenges = s.challenges := by
  unfold on_captcha_solved
  cases dictGet s.solution_callbacks c.id <;> rfl

theorem handle_solve_cases (s : SolverState) (cid : String) (c : CaptchaChallenge)
    (query : List (String × String)) :
    (handle_solve s cid c query
         = (s, HttpResp.ok "text/html; charset=utf-8" confirmation_page, [])
       ∧ (qsLookup query "response" = none ∨ qsLookup query "response" = some ""))
    ∨ ∃ tok, qsLookup query "response" = some tok ∧ tok ≠ ""
        ∧ (handle_solve s cid c query).1.challenges
            = dictSet s.challenges cid { c with result := some (unquote tok), solved := true }
        ∧ (handle_solve s cid c query).2.1
            = HttpResp.ok "text/html; charset=utf-8" confirmation_page := by
  unfold handle_solve
  cases hr : qsLookup query "response" with
  | none => exact Or.inl ⟨rfl, Or.inl rfl⟩
  | some tok =>
    by_cases ht : tok = ""
    · subst ht
      exact Or.inl ⟨by simp, Or.inr rfl⟩
    · right
      refine ⟨tok, rfl, ht, ?_, ?_⟩
      · simp only [if_neg ht, on_captcha_solved_challenges]
      · simp only [if_neg ht]

theorem do_GET_cases (s : SolverState) (path : String)
    (query : List (String × String)) (now : ℚ) :
    (do_GET s path query now).1 = s
    ∨ ∃ cid c, qsLookup query "id" = some cid ∧ get_challenge s cid = some c
        ∧ qsLookup query "do" = some "solve"
        ∧ do_GET s path query now = handle_solve s cid c query := by
  simp only [do_GET]
  split
  · exact Or.inl rfl
  next cid h1 =>
    split
    · exact Or.inl rfl
    next hcid =>
      split
      · exact Or.inl rfl
      next c hc =>
        split_ifs with hA hB hC hD hE hF
        · exact Or.inl rfl
        · exact Or.inl rfl
        · exact Or.inr ⟨cid, c, h1, hc, hC, rfl⟩
        · exact Or.inl rfl
        · exact Or.inl rfl
        · exact Or.inl rfl
        · exact Or.inl rfl

/-! ### Claim theorems -/

/-- C3 (amended): for every challenge with `timeout_seconds ≥ 1`,
`is_expired()` is false immediately after creation; because
`get_remaining_timeout` truncates the remaining time to an integer before
comparing with 0, `is_expired()` becomes true exactly once the remaining
wall-clock window `timeout - elapsed` drops below one second (i.e. once
elapsed time exceeds `timeout_seconds - 1`, not `timeout_seconds`); the
transition is monotone (never reverts); and the `timeout_seconds=1` /
1.1-second scenario holds with `get_remaining_timeout() = 0`. -/
theorem C3_expiry_threshold :
    (∀ c : CaptchaChallenge, 1 ≤ c.timeout → is_expired c c.created = false)
    ∧ (∀ (c : CaptchaChallenge) (now : ℚ),
        is_expired c now = true ↔ (c.timeout : ℚ) - (now - c.created) < 1)
    ∧ (∀ (c : CaptchaChallenge) (t₁ t₂ : ℚ), t₁ ≤ t₂ →
        is_expired c t₁ = true → is_expired c t₂ = true)
    ∧ (∀ (c : CaptchaChallenge) (now : ℚ), c.timeout = 1 → now - c.created = 11 / 10 →
        is_expired c now = true ∧ get_remaining_timeout c now = 0) := by
  refine ⟨?_, ?_, ?_, ?_⟩
  · intro c h
    rw [is_expired_false_iff]
    have h1 : (1 : ℚ) ≤ (c.timeout : ℚ) := by exact_mod_cast h
    linarith
  · intro c now
    exact is_expired_true_iff c now
  · intro c t₁ t₂ hle h1
    rw [is_expired_true_iff] at h1 ⊢
    linarith
  · intro c now ht helapsed
    constructor
    · rw [is_expired_true_iff, ht, helapsed]
      norm_num
    · rw [remaining_eq_zero_iff, ht, helapsed]
      norm_num

/-- Witness for C3: the challenge `cexOne` (timeout 1 s, created at 0)
polled at instant 11/10 satisfies the amended claim's hypotheses, and the
theorem yields the 1.1-second scenario conclusions. -/
theorem C3_expiry_threshold_witness :
    cexOne.timeout = 1 ∧ (11 / 10 : ℚ) - cexOne.created = 11 / 10
      ∧ is_expired cexOne (11 / 10) = true
      ∧ get_remaining_timeout cexOne (11 / 10) = 0 := by
  have h1 : cexOne.timeout = 1 := rfl
  have h2 : (11 / 10 : ℚ) - cexOne.created = 11 / 10 := by
    show (11 / 10 : ℚ) - 0 = 11 / 10
    norm_num
  exact ⟨h1, h2, C3_expiry_threshold.2.2.2 cexOne (11 / 10) h1 h2⟩

/-- Counterexample to C3 as stated: `cexShort` (timeout 2 s, created at 0)
already reports `is_expired() = true` at instant 3/2, although the elapsed
time 3/2 does not exceed `timeout_seconds = 2`; and `cexZero` (timeout 0)
is expired immediately at creation, contradicting "false immediately after
creation" for every challenge. -/
theorem C3_counterexample :
    (is_expired cexShort (3 / 2) = true
      ∧ (3 / 2 : ℚ) - cexShort.created < (cexShort.timeout : ℚ))
    ∧ is_expired cexZero cexZero.created = true := by
  refine ⟨⟨?_, ?_⟩, ?_⟩
  · rw [is_expired_true_iff]
    show ((2 : ℤ) : ℚ) - (3 / 2 - 0) < 1
    norm_num
  · show (3 / 2 : ℚ) - 0 < ((2 : ℤ) : ℚ)
    norm_num
  · rw [is_expired_true_iff]
    show ((0 : ℤ) : ℚ) - (0 - 0) < 1
    norm_num

/-- C4: `list_challenges` returns exactly the challenges that are neither
solved nor expired (each as the `CaptchaJob` summary built by `toJob`), in
order non-decreasing in `remaining`; every returned summary carries id,
kind, host, explain text, category, remaining, timeout and creation time,
and its only other field (`link`) is `none` — the `CaptchaJob` record has
no `result` field at all, so the raw result is never exposed. -/
theorem C4_list_active (s : SolverState) (now : ℚ) :
    (∀ j, j ∈ list_challenges s now ↔
      ∃ c, c ∈ s.challenges.map Prod.snd ∧ c.solved = false
        ∧ is_expired c now = false ∧ toJob c now = j)
    ∧ (list_challenges s now).Pairwise (fun a b => a.remaining ≤ b.remaining)
    ∧ (∀ j ∈ list_challenges s now, ∃ c, c ∈ s.challenges.map Prod.snd
        ∧ j.id = c.id ∧ j.challenge_type = c.challenge_type ∧ j.hoster = c.host
        ∧ j.captcha_category = c.type_id ∧ j.explain = c.explain
        ∧ j.remaining = get_remaining_timeout c now ∧ j.timeout = c.timeout
        ∧ j.created = c.created ∧ j.link = none) := by
  have hmem : ∀ j, j ∈ list_challenges s now ↔
      ∃ c, c ∈ s.challenges.map Prod.snd ∧ c.solved = false
        ∧ is_expired c now = false ∧ toJob c now = j := by
    intro j
    unfold list_challenges
    rw [List.mem_mergeSort, List.mem_map]
    constructor
    · rintro ⟨c, hc, rfl⟩
      rw [List.mem_filter] at hc
      have hb := hc.2
      simp only [Bool.and_eq_true, Bool.not_eq_true'] at hb
      exact ⟨c, hc.1, hb.1, hb.2, rfl⟩
    · rintro ⟨c, hc, hs, he, rfl⟩
      exact ⟨c, List.mem_filter.mpr ⟨hc, by simp [hs, he]⟩, rfl⟩
  refine ⟨hmem, ?_, ?_⟩
  · unfold list_challenges
    refine List.Pairwise.imp (fun hab => ?_) (List.sorted_mergeSort ?_ ?_ _)
    · exact decide_eq_true_eq.mp hab
    · intro a b c hab hbc
      rw [decide_eq_true_eq] at hab hbc ⊢
      omega
    · intro a b
      rw [Bool.or_eq_true, decide_eq_true_eq, decide_eq_true_eq]
      omega
  · intro j hj
    obtain ⟨c, hcmem, _, _, rfl⟩ := (hmem j).mp hj
    exact ⟨c, hcmem, rfl, rfl, rfl, rfl, rfl, rfl, rfl, rfl, rfl⟩

/-- C5: `cleanup_expired_challenges` removes exactly the records that are
expired at the time of the call (regardless of `solved`), keeps every
non-expired record unchanged, discards the callback of every removed id
while keeping the others, performs no callback invocation, and is
idempotent.  The hypothesis that the stored keys are distinct is the
Python dict invariant. -/
theorem C5_cleanup (s : SolverState) (now : ℚ)
    (hkeys : (s.challenges.map Prod.fst).Nodup) :
    (∀ p, p ∈ (cleanup_expired_challenges s now).1.challenges ↔
        p ∈ s.challenges ∧ is_expired p.2 now = false)
    ∧ (∀ q, q ∈ (cleanup_expired_challenges s now).1.solution_callbacks ↔
        q ∈ s.solution_callbacks
          ∧ ∀ c, (q.1, c) ∈ s.challenges → is_expired c now = false)
    ∧ (cleanup_expired_challenges s now).2 = []
    ∧ cleanup_expired_challenges (cleanup_expired_challenges s now).1 now
        = cleanup_expired_challenges s now := by
  have hEmem : ∀ x : String,
      (((s.challenges.filter (fun p => is_expired p.2 now)).map Prod.fst).contains x)
        = true ↔ ∃ c, (x, c) ∈ s.challenges ∧ is_expired c now = true := by
    intro x
    rw [show (((s.challenges.filter (fun p => is_expired p.2 now)).map Prod.fst).contains x)
        = (((s.challenges.filter (fun p => is_expired p.2 now)).map Prod.fst).elem x) from rfl]
    rw [List.elem_iff]
    constructor
    · intro hx
      obtain ⟨p, hp, hpx⟩ := List.mem_map.mp hx
      rw [List.mem_filter] at hp
      exact ⟨p.2, by rw [← hpx]; exact hp.1, hp.2⟩
    · rintro ⟨c, hc, hcexp⟩
      exact List.mem_map.mpr ⟨(x, c), List.mem_filter.mpr ⟨hc, hcexp⟩, rfl⟩
  have hchal : ∀ p, p ∈ (cleanup_expired_challenges s now).1.challenges ↔
      p ∈ s.challenges ∧ is_expired p.2 now = false := by
    intro p
    simp only [cleanup_expired_challenges]
    rw [List.mem_filter]
    constructor
    · rintro ⟨hp, hcont⟩
      refine ⟨hp, ?_⟩
      rw [Bool.not_eq_eq_eq_not, Bool.not_true] at hcont
      by_contra hex
      rw [Bool.not_eq_false] at hex
      have h1 := (hEmem p.1).mpr ⟨p.2, hp, hex⟩
      rw [hcont] at h1
      exact Bool.false_ne_true h1
    · rintro ⟨hp, hexp⟩
      refine ⟨hp, ?_⟩
      rw [Bool.not_eq_eq_eq_not, Bool.not_true]
      by_contra hcont
      rw [Bool.not_eq_false] at hcont
      obtain ⟨c, hc, hcexp⟩ := (hEmem p.1).mp hcont
      have hceq : c = p.2 := nodup_keys_eq hkeys hc (by rw [← Prod.mk.eta (p := p)] at hp; exact hp)
      rw [hceq, hexp] at hcexp
      exact Bool.false_ne_true hcexp
  have hcb : ∀ q, q ∈ (cleanup_expired_challenges s now).1.solution_callbacks ↔
      q ∈ s.solution_callbacks
        ∧ ∀ c, (q.1, c) ∈ s.challenges → is_expired c now = false := by
    intro q
    simp only [cleanup_expired_challenges]
    rw [List.mem_filter]
    constructor
    · rintro ⟨hq, hcont⟩
      refine ⟨hq, fun c hc => ?_⟩
      rw [Bool.not_eq_eq_eq_not, Bool.not_true] at hcont
      by_contra hex
      rw [Bool.not_eq_false] at hex
      have h1 := (hEmem q.1).mpr ⟨c, hc, hex⟩
      rw [hcont] at h1
      exact Bool.false_ne_true h1
    · rintro ⟨hq, hall⟩
      refine ⟨hq, ?_⟩
      rw [Bool.not_eq_eq_eq_not, Bool.not_true]
      by_contra hcont
      rw [Bool.not_eq_false] at hcont
      obtain ⟨c, hc, hcexp⟩ := (hEmem q.1).mp hcont
      rw [hall c hc] at hcexp
      exact Bool.false_ne_true hcexp
  refine ⟨hchal, hcb, rfl, ?_⟩
  have hnone : ∀ p ∈ (cleanup_expired_challenges s now).1.challenges,
      is_expired p.2 now = false := fun p hp => ((hchal p).mp hp).2
  have hfilter_nil :
      (cleanup_expired_challenges s now).1.challenges.filter
        (fun p => is_expired p.2 now) = [] := by
    rw [List.filter_eq_nil_iff]
    intro p hp
    rw [hnone p hp]
    exact Bool.false_ne_true
  show cleanup_expired_challenges (cleanup_expired_challenges s now).1 now
      = ((cleanup_expired_challenges s now).1, [])
  generalize hst : (cleanup_expired_challenges s now).1 = st' at hfilter_nil ⊢
  simp only [cleanup_expired_challenges]
  rw [hfilter_nil]
  simp only [List.map_nil, List.contains_nil, Bool.not_false]
  rw [List.filter_eq_self.mpr (fun a _ => rfl),
    List.filter_eq_self.mpr (fun a _ => rfl)]

/-- Witness for C5: the one-challenge registry `st0` has distinct keys, and
the theorem applied to it yields idempotence of its cleanup at instant 0. -/
theorem C5_cleanup_witness :
    (st0.challenges.map Prod.fst).Nodup
    ∧ cleanup_expired_challenges (cleanup_expired_challenges st0 0).1 0
        = cleanup_expired_challenges st0 0 :=
  ⟨by decide, (C5_cleanup st0 0 (by decide)).2.2.2⟩

/-- C7: the wait loop, run over the trace of snapshots observed at the
successive poll instants (one entry per iteration admitted by the caller
timeout), returns the challenge's `result` at the first solved snapshot,
returns `none` at the first expired (and unsolved) snapshot, and returns
`none` when the trace is exhausted with every snapshot still pending
(caller timeout). -/
theorem C7_wait_outcomes :
    (∀ trace : List (CaptchaChallenge × ℚ),
        (∀ o ∈ trace, o.1.solved = false ∧ is_expired o.1 o.2 = false) →
        wait_for_solution trace = none)
    ∧ (∀ (pre : List (CaptchaChallenge × ℚ)) (o : CaptchaChallenge × ℚ)
          (rest : List (CaptchaChallenge × ℚ)),
        (∀ p ∈ pre, p.1.solved = false ∧ is_expired p.1 p.2 = false) →
        o.1.solved = true →
        wait_for_solution (pre ++ o :: rest) = o.1.result)
    ∧ (∀ (pre : List (CaptchaChallenge × ℚ)) (o : CaptchaChallenge × ℚ)
          (rest : List (CaptchaChallenge × ℚ)),
        (∀ p ∈ pre, p.1.solved = false ∧ is_expired p.1 p.2 = false) →
        o.1.solved = false → is_expired o.1 o.2 = true →
        wait_for_solution (pre ++ o :: rest) = none) := by
  have hpend : ∀ (pre l : List (CaptchaChallenge × ℚ)),
      (∀ p ∈ pre, p.1.solved = false ∧ is_expired p.1 p.2 = false) →
      wait_for_solution (pre ++ l) = wait_for_solution l := by
    intro pre
    induction pre with
    | nil => intro l _; rfl
    | cons o pre' ih =>
      intro l h
      obtain ⟨c, t⟩ := o
      have h0 := h (c, t) (by simp)
      show wait_for_solution ((c, t) :: (pre' ++ l)) = _
      rw [wait_for_solution, if_neg, if_neg]
      · exact ih l fun p hp => h p (List.mem_cons_of_mem _ hp)
      · rw [h0.2]
        exact Bool.false_ne_true
      · rw [h0.1]
        exact Bool.false_ne_true
  refine ⟨?_, ?_, ?_⟩
  · intro trace h
    have h1 : trace = trace ++ [] := by simp
    rw [h1, hpend trace [] h]
    rfl
  · intro pre o rest h hsolved
    obtain ⟨c, t⟩ := o
    rw [hpend pre ((c, t) :: rest) h, wait_for_solution]
    rw [if_pos]
    exact hsolved
  · intro pre o rest h hs he
    obtain ⟨c, t⟩ := o
    rw [hpend pre ((c, t) :: rest) h, wait_for_solution]
    rw [if_neg, if_pos]
    · exact he
    · rw [hs]
      exact Bool.false_ne_true

/-- Witness for C7: a trace with one pending snapshot (`cex` at instant 0)
followed by a solved snapshot returns the solved challenge's token. -/
theorem C7_wait_outcomes_witness :
    (cex.solved = false ∧ is_expired cex 0 = false)
    ∧ wait_for_solution [(cex, 0), (cexSolved, 0)] = some "tok" := by
  have hpend : cex.solved = false ∧ is_expired cex 0 = false := by
    refine ⟨rfl, ?_⟩
    rw [is_expired_false_iff]
    show (1 : ℚ) ≤ ((300 : ℤ) : ℚ) - (0 - 0)
    norm_num
  refine ⟨hpend, ?_⟩
  have h := C7_wait_outcomes.2.1 [(cex, 0)] (cexSolved, 0) []
    (fun p hp => by
      rw [List.mem_singleton] at hp
      rw [hp]
      exact hpend)
    rfl
  exact h

/-- C8: when the callback registered for a challenge raises at the solved
transition, `_on_captcha_solved` still returns normally (the model is a
total function whose invocation log records the raise), the challenge
registry — hence the challenge's `solved`/`result` — is untouched, and the
callback is removed, so invoking the handler again performs no further
invocation. -/
theorem C8_callback_failure (s : SolverState) (c : CaptchaChallenge) (cb : Callback)
    (hcb : dictGet s.solution_callbacks c.id = some cb)
    (hraise : cb.run c = CbResult.raised) :
    (on_captcha_solved s c).1.challenges = s.challenges
    ∧ dictGet (on_captcha_solved s c).1.solution_callbacks c.id = none
    ∧ (on_captcha_solved s c).2 = [(c.id, CbResult.raised)]
    ∧ on_captcha_solved (on_captcha_solved s c).1 c = ((on_captcha_solved s c).1, []) := by
  have hnone_case : ∀ X : SolverState,
      dictGet X.solution_callbacks c.id = none → on_captcha_solved X c = (X, []) := by
    intro X hX
    unfold on_captcha_solved
    rw [hX]
  have hdel : (on_captcha_solved s c).1.solution_callbacks
      = dictDel s.solution_callbacks c.id := by
    unfold on_captcha_solved
    rw [hcb]
  have hnone : dictGet (on_captcha_solved s c).1.solution_callbacks c.id = none := by
    rw [hdel]
    exact dictGet_dictDel_self _ _
  have hlog : (on_captcha_solved s c).2 = [(c.id, CbResult.raised)] := by
    unfold on_captcha_solved
    rw [hcb]
    simp [hraise]
  exact ⟨on_captcha_solved_challenges s c, hnone, hlog, hnone_case _ hnone⟩

/-- Witness for C8: the registry `stCb` holds a raising callback for the id
of `cex`; after the solved notification the callback map no longer resolves
that id and the log records exactly the one raised invocation. -/
theorem C8_callback_failure_witness :
    dictGet stCb.solution_callbacks cex.id = some cbRaised
    ∧ cbRaised.run cex = CbResult.raised
    ∧ dictGet (on_captcha_solved stCb cex).1.solution_callbacks cex.id = none
    ∧ (on_captcha_solved stCb cex).2 = [(cex.id, CbResult.raised)] := by
  have h1 : dictGet stCb.solution_callbacks cex.id = some cbRaised := rfl
  have h2 : cbRaised.run cex = CbResult.raised := rfl
  have h := C8_callback_failure stCb cex cbRaised h1 h2
  exact ⟨h1, h2, h.2.1, h.2.2.1⟩

theorem do_GET_dispatch_solve (s : SolverState) (path : String)
    (query : List (String × String)) (now : ℚ) (cid : String) (c : CaptchaChallenge)
    (hid : qsLookup query "id" = some cid) (hcid : cid ≠ "")
    (hch : get_challenge s cid = some c)
    (hdo : qsLookup query "do" = some "solve") :
    do_GET s path query now = handle_solve s cid c query := by
  simp only [do_GET, hid, hch, hdo, if_neg hcid]
  simp

theorem do_GET_dispatch_canClose (s : SolverState) (path : String)
    (query : List (String × String)) (now : ℚ) (cid : String) (c : CaptchaChallenge)
    (hid : qsLookup query "id" = some cid) (hcid : cid ≠ "")
    (hch : get_challenge s cid = some c)
    (hdo : qsLookup query "do" = some "canClose") :
    do_GET s path query now = (s, handle_can_close c now, []) := by
  simp only [do_GET, hid, hch, hdo, if_neg hcid]
  simp

/-- C1 (amended): in any registry state where every solved challenge
carries a result (as in every reachable state), a GET request preserves
that invariant, never removes a solved challenge, never reverts `solved` to
false, and leaves the registry entirely unchanged unless the request is a
`solve` action; however — unlike the claim as stated — a second `solve`
request with a non-empty token overwrites `result`
(see the counterexample). -/
theorem C1_solved_result_invariant (s : SolverState) (path : String)
    (query : List (String × String)) (now : ℚ)
    (hinv : ∀ p ∈ s.challenges, p.2.solved = true → p.2.result ≠ none) :
    (∀ p ∈ (do_GET s path query now).1.challenges, p.2.solved = true → p.2.result ≠ none)
    ∧ (∀ cid c, dictGet s.challenges cid = some c → c.solved = true →
        ∃ c', dictGet (do_GET s path query now).1.challenges cid = some c'
          ∧ c'.solved = true ∧ c'.result ≠ none)
    ∧ (qsLookup query "do" ≠ some "solve" → (do_GET s path query now).1 = s) := by
  rcases do_GET_cases s path query now with heq | ⟨cid0, c0, _, _, hdo, heq⟩
  · rw [heq]
    exact ⟨hinv, fun cid c h hs => ⟨c, h, hs, hinv _ (dictGet_eq_some_mem h) hs⟩,
      fun _ => rfl⟩
  · rcases handle_solve_cases s cid0 c0 query with ⟨hs_eq, _⟩ | ⟨tok, _, _, hchal, _⟩
    · rw [heq, hs_eq]
      exact ⟨hinv, fun cid c h hs => ⟨c, h, hs, hinv _ (dictGet_eq_some_mem h) hs⟩,
        fun hnot => (hnot hdo).elim⟩
    · rw [heq]
      refine ⟨?_, ?_, fun hnot => (hnot hdo).elim⟩
      · intro p hp hps
        rw [hchal] at hp
        rcases mem_dictSet hp with rfl | hpe
        · simp
        · exact hinv p hpe hps
      · intro cid c h hs
        by_cases hcid : cid = cid0
        · subst hcid
          rw [hchal]
          exact ⟨_, dictGet_dictSet_self _ _ _, rfl, by simp⟩
        · rw [hchal, dictGet_dictSet_ne _ _ _ _ hcid]
          exact ⟨c, h, hs, hinv _ (dictGet_eq_some_mem h) hs⟩

/-- Witness for C1: the one-challenge registry `st0` satisfies the
invariant hypothesis, and a GET without a `solve` action (here: an empty
query) leaves the state unchanged. -/
theorem C1_solved_result_invariant_witness :
    (∀ p ∈ st0.challenges, p.2.solved = true → p.2.result ≠ none)
    ∧ (do_GET st0 "/p" [] 0).1 = st0 := by
  have hinv : ∀ p ∈ st0.challenges, p.2.solved = true → p.2.result ≠ none := by decide
  exact ⟨hinv, (C1_solved_result_invariant st0 "/p" [] 0 hinv).2.2 (by decide)⟩

/-- Counterexample to C1 as stated: after `do=solve&response=tokA` the
challenge is solved with result "tokA", and a second `do=solve` request on
the same challenge id with `response=tokB` changes the already-set result
to "tokB" — `_handle_solve` has no guard on an already solved challenge. -/
theorem C1_counterexample :
    ((do_GET st0 "/p" [("id", "c1"), ("do", "solve"), ("response", "tokA")] 0).1.challenges.map
        (fun p => (p.1, p.2.solved, p.2.result)) = [("c1", true, some "tokA")])
    ∧ ((do_GET (do_GET st0 "/p" [("id", "c1"), ("do", "solve"), ("response", "tokA")] 0).1
          "/p" [("id", "c1"), ("do", "solve"), ("response", "tokB")] 0).1.challenges.map
        (fun p => (p.1, p.2.solved, p.2.result)) = [("c1", true, some "tokB")]) := by
  decide

/-- C2 (amended): submitting `do=solve` with a non-blank `response` value
`raw` stores, as the challenge's `result`, the value decoded TWICE — once
by the query parser (`parse_qs` applies `unquote_plus`) and once more by
`_handle_solve`'s explicit `unquote` — sets `solved`, and a subsequent
`do=canClose` request on the same id answers "true" while leaving the
state (hence `result`) unchanged.  For tokens whose once-decoded form
contains no percent escape (such as the scenario's `abc%20123`, decoding to
"abc 123") the double decoding coincides with the claimed single decoding;
the counterexample shows they differ in general. -/
theorem C2_solve_stores_decoded_token (s : SolverState) (path path' : String)
    (rawId raw : String) (c : CaptchaChallenge) (now now' : ℚ)
    (h0 : rawId ≠ "") (h1 : unquote_plus rawId ≠ "")
    (h2 : get_challenge s (unquote_plus rawId) = some c)
    (h3 : raw ≠ "") (h4 : unquote_plus raw ≠ "") :
    ∃ c', get_challenge
        (do_GET s path [("id", rawId), ("do", "solve"), ("response", raw)] now).1
        (unquote_plus rawId) = some c'
      ∧ c'.solved = true
      ∧ c'.result = some (unquote (unquote_plus raw))
      ∧ do_GET (do_GET s path [("id", rawId), ("do", "solve"), ("response", raw)] now).1
            path' [("id", rawId), ("do", "canClose")] now'
          = ((do_GET s path [("id", rawId), ("do", "solve"), ("response", raw)] now).1,
             HttpResp.ok "text/plain" "true", []) := by
  have hq_id : qsLookup [("id", rawId), ("do", "solve"), ("response", raw)] "id"
      = some (unquote_plus rawId) := by
    simp [qsLookup, h0]
  have hq_do : qsLookup [("id", rawId), ("do", "solve"), ("response", raw)] "do"
      = some "solve" := by
    simp only [qsLookup]
    rw [if_neg (fun h => absurd h.1 (by decide)), if_pos ⟨trivial, by decide⟩]
    decide
  have hq_resp : qsLookup [("id", rawId), ("do", "solve"), ("response", raw)] "response"
      = some (unquote_plus raw) := by
    simp [qsLookup, h3]
  have h5 : do_GET s path [("id", rawId), ("do", "solve"), ("response", raw)] now
      = handle_solve s (unquote_plus rawId) c
          [("id", rawId), ("do", "solve"), ("response", raw)] :=
    do_GET_dispatch_solve s path _ now _ c hq_id h1 h2 hq_do
  have h6 : (handle_solve s (unquote_plus rawId) c
        [("id", rawId), ("do", "solve"), ("response", raw)]).1.challenges
      = dictSet s.challenges (unquote_plus rawId)
          { c with result := some (unquote (unquote_plus raw)), solved := true } := by
    simp only [handle_solve, hq_resp, if_neg h4]
    exact on_captcha_solved_challenges _ _
  have h7 : get_challenge
      (do_GET s path [("id", rawId), ("do", "solve"), ("response", raw)] now).1
      (unquote_plus rawId)
      = some { c with result := some (unquote (unquote_plus raw)), solved := true } := by
    rw [h5]
    unfold get_challenge
    rw [h6]
    exact dictGet_dictSet_self _ _ _
  refine ⟨_, h7, rfl, rfl, ?_⟩
  have h8 : qsLookup [("id", rawId), ("do", "canClose")] "id"
      = some (unquote_plus rawId) := by
    simp [qsLookup, h0]
  have h9 : qsLookup [("id", rawId), ("do", "canClose")] "do" = some "canClose" := by
    simp only [qsLookup]
    rw [if_neg (fun h => absurd h.1 (by decide)), if_pos ⟨trivial, by decide⟩]
    decide
  have h10 := do_GET_dispatch_canClose
    (do_GET s path [("id", rawId), ("do", "solve"), ("response", raw)] now).1
    path' [("id", rawId), ("do", "canClose")] now' (unquote_plus rawId)
    { c with result := some (unquote (unquote_plus raw)), solved := true }
    h8 h1 h7 h9
  rw [h10]
  rfl

/-- Witness for C2: the scenario input — challenge `cex` in registry `st0`,
`do=solve&response=abc%20123` — stores `result = "abc 123"` and the
subsequent `do=canClose` answers "true". -/
theorem C2_solve_stores_decoded_token_witness :
    unquote (unquote_plus "abc%20123") = "abc 123"
    ∧ ∃ c', get_challenge
        (do_GET st0 "/p" [("id", "c1"), ("do", "solve"), ("response", "abc%20123")] 0).1
        (unquote_plus "c1") = some c'
      ∧ c'.solved = true
      ∧ c'.result = some (unquote (unquote_plus "abc%20123"))
      ∧ do_GET (do_GET st0 "/p" [("id", "c1"), ("do", "solve"), ("response", "abc%20123")] 0).1
            "/q" [("id", "c1"), ("do", "canClose")] 0
          = ((do_GET st0 "/p" [("id", "c1"), ("do", "solve"), ("response", "abc%20123")] 0).1,
             HttpResp.ok "text/plain" "true", []) :=
  ⟨by decide,
    C2_solve_stores_decoded_token st0 "/p" "/q" "c1" "abc%20123" cex 0 0
      (by decide) (by decide) rfl (by decide) (by decide)⟩

/-- Counterexample to C2 as stated: submitting `response=a%2525b` (whose
URL-decoded form is "a%25b") leaves the challenge's `result` equal to the
twice-decoded "a%b", not to the single decoding the claim asserts. -/
theorem C2_counterexample :
    unquote_plus "a%2525b" = "a%25b"
    ∧ ((do_GET st0 "/p" [("id", "c1"), ("do", "solve"), ("response", "a%2525b")] 0).1.challenges.map
        (fun p => (p.1, p.2.result)) = [("c1", some "a%b")])
    ∧ ("a%b" : String) ≠ "a%25b" := by
  decide

/-- C10: a `do=solve` request whose `response` value is missing or blank
leaves the solver state entirely unchanged (challenge untouched, callback
map untouched, no invocation performed) and still answers 200 with the
confirmation page; the second part states it end-to-end through the
router for a request carrying no `response` parameter at all. -/
theorem C10_empty_response :
    (∀ (s : SolverState) (cid : String) (c : CaptchaChallenge)
        (query : List (String × String)),
      qsLookup query "response" = none ∨ qsLookup query "response" = some "" →
      handle_solve s cid c query
        = (s, HttpResp.ok "text/html; charset=utf-8" confirmation_page, []))
    ∧ (∀ (s : SolverState) (path rawId : String) (c : CaptchaChallenge) (now : ℚ),
      rawId ≠ "" → unquote_plus rawId ≠ "" →
      get_challenge s (unquote_plus rawId) = some c →
      do_GET s path [("id", rawId), ("do", "solve")] now
        = (s, HttpResp.ok "text/html; charset=utf-8" confirmation_page, [])) := by
  have hfirst : ∀ (s : SolverState) (cid : String) (c : CaptchaChallenge)
      (query : List (String × String)),
      qsLookup query "response" = none ∨ qsLookup query "response" = some "" →
      handle_solve s cid c query
        = (s, HttpResp.ok "text/html; charset=utf-8" confirmation_page, []) := by
    intro s cid c query h
    rcases h with h | h <;> simp [handle_solve, h]
  refine ⟨hfirst, ?_⟩
  intro s path rawId c now hraw h1 h2
  have hq_id : qsLookup [("id", rawId), ("do", "solve")] "id"
      = some (unquote_plus rawId) := by
    simp [qsLookup, hraw]
  have hq_do : qsLookup [("id", rawId), ("do", "solve")] "do" = some "solve" := by
    simp only [qsLookup]
    rw [if_neg (fun h => absurd h.1 (by decide)), if_pos ⟨trivial, by decide⟩]
    decide
  have hq_resp : qsLookup [("id", rawId), ("do", "solve")] "response" = none := by
    simp only [qsLookup]
    rw [if_neg (fun h => absurd h.1 (by decide)), if_neg (fun h => absurd h.1 (by decide))]
  rw [do_GET_dispatch_solve s path _ now _ c hq_id h1 h2 hq_do]
  exact hfirst s _ c _ (Or.inl hq_resp)

/-- Witness for C10: the request `do=solve` with no `response` parameter on
the registry `st0` answers the confirmation page and leaves `st0`
unchanged. -/
theorem C10_empty_response_witness :
    qsLookup [("id", "c1"), ("do", "solve")] "response" = none
    ∧ do_GET st0 "/p" [("id", "c1"), ("do", "solve")] 0
        = (st0, HttpResp.ok "text/html; charset=utf-8" confirmation_page, []) :=
  ⟨rfl, C10_empty_response.2 st0 "/p" "c1" cex 0 (by decide) (by decide) rfl⟩

/-- C6: evaluation at the failing input.  A GET for a stylesheet path that
carries no challenge id — exactly the request the handler's own generated
pages cause via `<link rel="stylesheet" href="style.css">` — answers 404,
as does one carrying an unknown id, because `do_GET` requires a resolvable
challenge id before the `.js`/`.css` branches are reached. -/
theorem C6_asset_requires_id :
    strEndsWith "/captcha/recaptchav2challenge/example.com/style.css" ".css" = true
    ∧ do_GET st0 "/captcha/recaptchav2challenge/example.com/style.css" [] 0
        = (st0, HttpResp.error 404, [])
    ∧ do_GET st0 "/captcha/recaptchav2challenge/example.com/style.css"
        [("id", "unknown")] 0 = (st0, HttpResp.error 404, []) := by
  exact ⟨by decide, rfl, rfl⟩

/-- C9: `_modify_recaptcha_js` replaces every occurrence of the Google API
base URL by the challenge's local proxy URL and appends the local
submit-solution handler, leaving all other content unchanged: a body with
no occurrence passes through untouched (up to the appended handler); a body
decomposed around an occurrence is rewritten exactly at that occurrence
with the surrounding content preserved (the side condition rules out an
overlapping match straddling the prefix, which the concrete URL cannot
produce); and the appended handler calls the `solve` action
(`&do=solve&response=` appears in it). -/
theorem C9_rewrite (hostH : String) (c : CaptchaChallenge) :
    (∀ js : String, containsSeq google_api_base.data js.data = false →
        modify_recaptcha_js hostH c js
          = js ++ solve_handler (recaptcha_base_url hostH c) c.id)
    ∧ (∀ p q : List Char,
        containsSeq google_api_base.data (p ++ google_api_base.data.dropLast) = false →
        (modify_recaptcha_js hostH c ⟨p ++ google_api_base.data ++ q⟩).data
          = p ++ (recaptcha_base_url hostH c ++ "proxy/").data
              ++ replaceAll google_api_base.data
                  (recaptcha_base_url hostH c ++ "proxy/").data q
              ++ (solve_handler (recaptcha_base_url hostH c) c.id).data)
    ∧ containsSeq "&do=solve&response=".data
        (solve_handler (recaptcha_base_url hostH c) c.id).data = true := by
  refine ⟨?_, ?_, ?_⟩
  · intro js hjs
    show (str_replace js google_api_base (recaptcha_base_url hostH c ++ "proxy/"))
        ++ solve_handler (recaptcha_base_url hostH c) c.id = _
    unfold str_replace
    rw [replaceAll_of_not_contains _ _ _ hjs]
  · intro p q hp
    show ((str_replace ⟨p ++ google_api_base.data ++ q⟩ google_api_base
          (recaptcha_base_url hostH c ++ "proxy/"))
        ++ solve_handler (recaptcha_base_url hostH c) c.id).data = _
    rw [String.data_append]
    unfold str_replace
    show replaceAll google_api_base.data (recaptcha_base_url hostH c ++ "proxy/").data
        (p ++ google_api_base.data ++ q) ++ _ = _
    rw [replaceAll_boundary _ _ (by decide) p q hp]
  · apply (containsSeq_iff _ _).mpr
    refine ⟨("\n        function submitCaptchaSolution(token) \x7b\n            var xhr = new XMLHttpRequest();\n            xhr.open(\x27GET\x27, \x27"
        ++ recaptcha_base_url hostH c ++ "?id=" ++ c.id).data,
      ("\x27 + encodeURIComponent(token), true);\n            xhr.send();\n        \x7d\n        " : String).data, ?_⟩
    unfold solve_handler
    simp only [String.data_append, List.append_assoc]
    congr 1

/-- Witness for C9: a concrete script body `var a=1;<google api url>;done`
is rewritten to `var a=1;<local proxy url>;done` with the handler appended
(second part of the theorem applied at a concrete split). -/
theorem C9_rewrite_witness :
    containsSeq google_api_base.data
      ("var a=1;".data ++ google_api_base.data.dropLast) = false
    ∧ (modify_recaptcha_js "localhost:8080" cex
        ⟨"var a=1;".data ++ google_api_base.data ++ ";done".data⟩).data
      = "var a=1;".data ++ (recaptcha_base_url "localhost:8080" cex ++ "proxy/").data
          ++ replaceAll google_api_base.data
              (recaptcha_base_url "localhost:8080" cex ++ "proxy/").data ";done".data
          ++ (solve_handler (recaptcha_base_url "localhost:8080" cex) cex.id).data :=
  ⟨by decide,
    (C9_rewrite "localhost:8080" cex).2.1 "var a=1;".data ";done".data (by decide)⟩

/-- Witness for C4: in the registry `st0` at instant 0, the summary of the
pending challenge `cex` is produced by `list_challenges`. -/
theorem C4_list_active_witness : toJob cex 0 ∈ list_challenges st0 0 :=
  ((C4_list_active st0 0).1 (toJob cex 0)).mpr
    ⟨cex, by simp [st0], rfl,
      by
        rw [is_expired_false_iff]
        show (1 : ℚ) ≤ ((300 : ℤ) : ℚ) - (0 - 0)
        norm_num,
      rfl⟩
